import Mathlib

/-!
Verification of the Shelly Dimmer protocol engine
(`esphome/components/shelly_dimmer/shelly_dimmer.cpp`).

The source is shallowly embedded: byte values (`uint8_t`) are `Nat`s that are
`< 256` in every reachable C state; 16-bit quantities carry explicit `% 65536`
where the C code can wrap; the parse buffer (`buffer_` plus cursor
`buffer_pos_`) is a `List Nat` whose length is the cursor; the transport is an
explicit list of byte chunks, one chunk per retry window; side effects
(transmitted frames, published telemetry) are returned as values.
-/

namespace ShellyDimmer

/-- Buffer capacity of the parse buffer `buffer_`.
Modelled from the spec: `SHELLY_DIMMER_BUFFER_SIZE` is declared in
`shelly_dimmer.h`, which is not part of the provided sources.  The spec fixes
the frame invariant `4 + payload_len + 3 ≤ buffer capacity`, states that
payload lengths 0–72 are the valid ones, and the `.cpp` defines
`SHELLY_DIMMER_PROTO_MAX_FRAME_SIZE = 4 + 72 + 3`, so the capacity is 79. -/
def SHELLY_DIMMER_BUFFER_SIZE : Nat := 79

/-- Model of `SHELLY_DIMMER_MAX_RETRIES` from the source. -/
def SHELLY_DIMMER_MAX_RETRIES : Nat := 3

/-- Model of `SHELLY_DIMMER_MAX_BRIGHTNESS` from the source (100% = 1000). -/
def SHELLY_DIMMER_MAX_BRIGHTNESS : Nat := 1000

/-- Model of `shelly_dimmer_checksum`: a `uint16_t` accumulator summing the bytes,
wrapping modulo 2^16 at each addition. -/
def shelly_dimmer_checksum (l : List Nat) : Nat :=
  l.foldl (fun s b => (s + b) % 65536) 0

/-- Model of `ShellyDimmer::frame_command_`, given the already-incremented sequence
byte (the source does `data[1] = ++this->seq_`; the caller of this model
performs the increment).  Layout: start marker `0x01`, sequence, command,
length, payload, checksum (big-endian, `csum >> 8` then `csum & 0xff`),
end marker `0x04`. -/
def frame_command (seq cmd : Nat) (payload : List Nat) : List Nat :=
  let len := payload.length
  let csum := shelly_dimmer_checksum ([seq, cmd, len] ++ payload)
  [1, seq, cmd, len] ++ payload ++ [csum / 256, csum % 256, 4]

/-- Model of `ShellyDimmer::handle_byte_`.  The state `st` is the content of `buffer_`
below the cursor, so `st.length` is `buffer_pos_` (the caller writes
`buffer_[pos] = c` before invoking `handle_byte_`, and the function reads only
indices `< pos` of the buffer plus the fresh byte `c`).  Returns `1` for
"need more data", `0` for "frame complete", `-1` for "failure".
`buffer_[pos-1] << 8 | c` is modelled as `* 256 + c`: the operands occupy
disjoint byte lanes and `c` is a `uint8_t`, so bitwise-or is addition. -/
def handle_byte (st : List Nat) (c : Nat) : Int :=
  if st.length = 0 then
    (if c = 1 then 1 else -1)
  else if st.length < 4 then 1
  else if 4 + st.getD 3 0 + 3 > SHELLY_DIMMER_BUFFER_SIZE then -1
  else if st.length < 4 + st.getD 3 0 + 1 then 1
  else if st.length = 4 + st.getD 3 0 + 1 then
    (if st.getD (st.length - 1) 0 * 256 + c ≠
        shelly_dimmer_checksum ((st.drop 1).take (3 + st.getD 3 0)) then -1 else 1)
  else if st.length = 4 + st.getD 3 0 + 2 then
    (if c = 4 then 0 else -1)
  else -1

/-- One iteration of the `switch` in `ShellyDimmer::read_frame_`: the byte is
kept (cursor advanced) exactly when `handle_byte_` asks for more data; on
completion and on failure `buffer_pos_` is reset to 0. -/
def parser_step (st : List Nat) (c : Nat) : Int × List Nat :=
  let r := handle_byte st c
  (r, if r = 1 then st ++ [c] else [])

/-- Outcome of draining the available bytes in `ShellyDimmer::read_frame_`. -/
inductive ReadOutcome where
  /-- A frame completed: its bytes, and the bytes left unread. -/
  | frameDone (frame : List Nat) (rest : List Nat) : ReadOutcome
  /-- Input exhausted with no completed frame; the parser state remains. -/
  | noFrame (st : List Nat) : ReadOutcome
deriving DecidableEq

/-- Model of `ShellyDimmer::read_frame_`: consume available bytes one at a time; on the
first completed frame, dispatch it and return `true` (the frame and the
unread remainder are returned here; note the source calls `handle_frame_()`
and discards its boolean result).  If the input runs out, return `false`
with the parser state preserved for the next poll. -/
def read_frame : List Nat → List Nat → ReadOutcome
  | st, [] => .noFrame st
  | st, c :: rest =>
    if handle_byte st c = 0 then .frameDone (st ++ [c]) rest
    else read_frame (parser_step st c).2 rest

/-- The sequence of `handle_byte_` results produced while feeding a byte list
through the parser, starting from state `st`. -/
def feed_results : List Nat → List Nat → List Int
  | _, [] => []
  | st, c :: rest => handle_byte st c :: feed_results (parser_step st c).2 rest

/-- The parser state (buffer content, whose length is the cursor) after
feeding a byte list, resets included. -/
def parse_run : List Nat → List Nat → List Nat
  | st, [] => st
  | st, c :: rest => parse_run (parser_step st c).2 rest

/-- Model of `ShellyDimmer::convert_brightness_`.  The C input is a `float` in
`[0.0, 1.0]`; it is modelled as an exact rational.  The `uint16_t` cast of
the nonnegative product truncates toward zero (`Int.floor` then `toNat`),
and the two `uint16_t` stores carry the `% 65536` wrap; `std::min` clamps to
`SHELLY_DIMMER_MAX_BRIGHTNESS = 1000`.  `max_brightness_ - min_brightness_`
is `int` subtraction after integer promotion, modelled exactly in `ℚ`. -/
def convert_brightness (min_b max_b : Nat) (brightness : ℚ) : Nat :=
  if brightness = 0 then 0
  else
    min (((Int.floor (brightness * ((max_b : ℚ) - (min_b : ℚ)))).toNat % 65536 + min_b)
      % 65536) SHELLY_DIMMER_MAX_BRIGHTNESS

/-- The protocol-level device state of `ShellyDimmer` (the `uint16_t` fields
hold values `< 65536`; `seq_` is the `uint8_t` sequence counter). -/
structure DimmerState where
  seq_ : Nat
  brightness_ : Nat
  min_brightness_ : Nat
  max_brightness_ : Nat
  fade_rate_ : Nat
  warmup_brightness_ : Nat
  warmup_time_ : Nat
  leading_edge_ : Bool
  ready_ : Bool
deriving DecidableEq

/-- Model of `ShellyDimmer::send_brightness_`: builds the 2-byte little-endian switch
payload (`brightness & 0xff`, `brightness >> 8`), issues the switch command
(0x01), and records the brightness as last sent.  The issued command is
returned as (command id, payload); transmission itself goes through
`send_command_`. -/
def send_brightness (st : DimmerState) (brightness : Nat) :
    DimmerState × (Nat × List Nat) :=
  ({ st with brightness_ := brightness },
   (1, [brightness % 256, brightness / 256]))

/-- Model of `ShellyDimmer::send_settings_`: clamps the fade rate to 100, converts the
current light brightness (`raw`, 0 when no light state is attached), builds
the 10-byte settings payload, issues the settings command (0x20), and then
issues a separate brightness command with the same value via
`send_brightness_`.  Returns the final state and the issued commands in
order. -/
def send_settings (st : DimmerState) (raw : ℚ) :
    DimmerState × List (Nat × List Nat) :=
  let fade_rate := min 100 st.fade_rate_
  let b := convert_brightness st.min_brightness_ st.max_brightness_ raw
  let payload : List Nat :=
    [b % 256, b / 256,
     if st.leading_edge_ then 1 else 2, 0,
     fade_rate % 256, fade_rate / 256,
     st.warmup_brightness_ % 256, st.warmup_brightness_ / 256,
     st.warmup_time_ % 256, st.warmup_time_ / 256]
  let r := send_brightness st b
  (r.1, [(32, payload), r.2])

/-- Model of `ShellyDimmer::write_state`: returns without any command when the
readiness flag is unset; converts the light brightness and returns without
any command when it equals the last-sent value; otherwise sends the new
brightness. -/
def write_state (st : DimmerState) (raw : ℚ) :
    DimmerState × List (Nat × List Nat) :=
  if st.ready_ = false then (st, [])
  else
    let b := convert_brightness st.min_brightness_ st.max_brightness_ raw
    if b = st.brightness_ then (st, [])
    else
      let r := send_brightness st b
      (r.1, [r.2])

/-- Model of `POWER_SCALING_FACTOR` (a C `float` whose value 880373 is exactly
representable in binary32; divisions are modelled exactly in `ℚ`). -/
def POWER_SCALING_FACTOR : ℚ := 880373

/-- Model of `VOLTAGE_SCALING_FACTOR` (exactly representable in binary32). -/
def VOLTAGE_SCALING_FACTOR : ℚ := 347800

/-- Model of `CURRENT_SCALING_FACTOR` (exactly representable in binary32). -/
def CURRENT_SCALING_FACTOR : ℚ := 1448

/-- A 32-bit little-endian read `p[i+3] << 24 | p[i+2] << 16 | p[i+1] << 8
| p[i]`; the byte lanes are disjoint and each operand is a `uint8_t`, so
bitwise-or is addition. -/
def le32_at (p : List Nat) (i : Nat) : Nat :=
  p.getD (i + 3) 0 * 16777216 + p.getD (i + 2) 0 * 65536 +
    p.getD (i + 1) 0 * 256 + p.getD i 0

/-- Result of `ShellyDimmer::handle_frame_`: the boolean dispatch outcome,
the telemetry values pushed to the power/voltage/current sensors for a poll
reply, and the (minor, major) version stored for a version reply. -/
structure DispatchResult where
  ok : Bool
  telemetry : Option (ℚ × ℚ × ℚ)
  version : Option (Nat × Nat)
deriving DecidableEq

/-- Model of `ShellyDimmer::handle_frame_` over the completed frame buffer and the
outstanding sequence number `seq_`.  A frame whose echoed sequence byte
differs is rejected.  Commands: 0x10 poll (payload ≥ 16 required; raw
little-endian 32-bit readings are converted by `constant / raw` only when
`raw > 0`, else 0), 0x11 version (payload ≥ 2; byte 0 minor, byte 1 major),
0x01 switch / 0x20 settings acknowledgments (payload ≥ 1 and status byte
0x01 required); anything else is a dispatch failure. -/
def handle_frame (buffer : List Nat) (seq : Nat) : DispatchResult :=
  if buffer.getD 1 0 ≠ seq then ⟨false, none, none⟩
  else if buffer.getD 2 0 = 16 then
    if buffer.getD 3 0 < 16 then ⟨false, none, none⟩
    else
      ⟨true,
       some ((if 0 < le32_at (buffer.drop 4) 4 then
                POWER_SCALING_FACTOR / (le32_at (buffer.drop 4) 4 : ℚ) else 0),
             (if 0 < le32_at (buffer.drop 4) 8 then
                VOLTAGE_SCALING_FACTOR / (le32_at (buffer.drop 4) 8 : ℚ) else 0),
             (if 0 < le32_at (buffer.drop 4) 12 then
                CURRENT_SCALING_FACTOR / (le32_at (buffer.drop 4) 12 : ℚ) else 0)),
       none⟩
  else if buffer.getD 2 0 = 17 then
    if buffer.getD 3 0 < 2 then ⟨false, none, none⟩
    else ⟨true, none, some ((buffer.drop 4).getD 0 0, (buffer.drop 4).getD 1 0)⟩
  else if buffer.getD 2 0 = 1 ∨ buffer.getD 2 0 = 32 then
    if buffer.getD 3 0 < 1 ∨ (buffer.drop 4).getD 0 0 ≠ 1 then ⟨false, none, none⟩
    else ⟨true, none, none⟩
  else ⟨false, none, none⟩

/-- The retry loop of `ShellyDimmer::send_command_` (`while (retries--)`):
each attempt transmits the prepared frame, then drains the bytes the
transport makes available during that attempt's 200 ms window (one chunk of
`inputs` per window), feeding them to the parser; a completed frame ends the
loop with success immediately (the dispatch result of `handle_frame_` is
discarded by `read_frame_`); otherwise the attempt times out and the
identical frame is retransmitted.  Returns the outcome and the transmitted
frames in order. -/
def send_command_loop :
    Nat → List Nat → List Nat → List (List Nat) → Bool × List (List Nat)
  | 0, _, _, _ => (false, [])
  | retries + 1, frame, st, inputs =>
    match read_frame st (inputs.headD []) with
    | .frameDone _ _ => (true, [frame])
    | .noFrame st2 =>
      let r := send_command_loop retries frame st2 inputs.tail
      (r.1, frame :: r.2)

/-- Model of `ShellyDimmer::send_command_`: pre-increment the 8-bit sequence counter,
encode the frame once via `frame_command_`, then run up to
`SHELLY_DIMMER_MAX_RETRIES` attempts.  Returns the outcome, the transmitted
frames, and the sequence number used. -/
def send_command (seq cmd : Nat) (payload : List Nat) (inputs : List (List Nat)) :
    Bool × List (List Nat) × Nat :=
  let s := (seq + 1) % 256
  let frame := frame_command s cmd payload
  let r := send_command_loop SHELLY_DIMMER_MAX_RETRIES frame [] inputs
  (r.1, r.2, s)

/-- The version-check loop in `ShellyDimmer::setup` (`for (int i = 0; i < 2;
i++)`), with the firmware version reported after the `i`-th reset/VERSION
exchange abstracted as the oracle `versions i` (it is whatever
`version_major_`/`version_minor_` hold after that exchange) and the outcome
of `upgrade_firmware_` abstracted as `upgrade_ok`.  Returns
(`mark_failed` called, reached the post-loop code, number of
`upgrade_firmware_` invocations). -/
def setup_loop (expM expm : Nat) (versions : Nat → Nat × Nat) (upgrade_ok : Bool) :
    Nat → Nat → Bool × Bool × Nat
  | 0, _ => (false, true, 0)
  | fuel + 1, i =>
    if (versions i).1 ≠ expM ∨ (versions i).2 ≠ expm then
      if 0 < i then (true, false, 0)
      else if upgrade_ok = false then (true, false, 1)
      else
        let r := setup_loop expM expm versions upgrade_ok fuel (i + 1)
        (r.1, r.2.1, r.2.2 + 1)
    else (false, true, 0)

/-- Model of `ShellyDimmer::setup`'s check→flash→check cycle: two loop iterations at
most; the post-loop code (polling interval, settings, `ready_ = true`) runs
only when the loop ends by version match or exhaustion.  Returns
(`mark_failed` called, `ready_` set, number of flash invocations). -/
def setup_model (expM expm : Nat) (versions : Nat → Nat × Nat) (upgrade_ok : Bool) :
    Bool × Bool × Nat :=
  setup_loop expM expm versions upgrade_ok 2 0

/-- The wrapping accumulator computes the plain sum modulo 2^16. -/
theorem shelly_dimmer_checksum_eq_sum (l : List Nat) :
    shelly_dimmer_checksum l = l.sum % 65536 := by
  have h : ∀ (l : List Nat) (s : Nat),
      l.foldl (fun s b => (s + b) % 65536) (s % 65536) = (s + l.sum) % 65536 := by
    intro l
    induction l with
    | nil => intro s; simp
    | cons b t ih =>
      intro s
      have h1 : (s % 65536 + b) % 65536 = (s + b) % 65536 := by
        conv_rhs => rw [Nat.add_mod]
        rw [Nat.add_mod, Nat.mod_mod_of_dvd]
        exact dvd_refl _
      simp only [List.foldl_cons, List.sum_cons, h1]
      rw [ih (s + b)]
      ring_nf
  have h0 := h l 0
  simpa [shelly_dimmer_checksum] using h0

/-- During the header and payload phase (cursor between 4 and `4+len`,
capacity respected) every byte is accepted unconditionally. -/
theorem handle_byte_payload_phase (st : List Nat) (c len : Nat)
    (h4 : 4 ≤ st.length) (hlen : st.getD 3 0 = len) (hcap : 4 + len + 3 ≤ 79)
    (hpos : st.length < 4 + len + 1) : handle_byte st c = 1 := by
  simp only [handle_byte, SHELLY_DIMMER_BUFFER_SIZE, hlen]
  rw [if_neg (by omega), if_neg (by omega), if_neg (by omega), if_pos (by omega)]

/-- A byte on which `handle_byte_` asks for more data is appended to the
buffer by `read_frame_` and reported as `1`. -/
theorem read_frame_cons_continue {st : List Nat} {c : Nat}
    (h : handle_byte st c = 1) (l : List Nat) :
    read_frame st (c :: l) = read_frame (st ++ [c]) l ∧
    feed_results st (c :: l) = 1 :: feed_results (st ++ [c]) l := by
  constructor
  · simp [read_frame, parser_step, h]
  · simp [feed_results, parser_step, h]

/-- A byte on which `handle_byte_` reports completion makes `read_frame_`
dispatch the assembled frame and stop. -/
theorem read_frame_cons_complete {st : List Nat} {c : Nat}
    (h : handle_byte st c = 0) (l : List Nat) :
    read_frame st (c :: l) = .frameDone (st ++ [c]) l ∧
    feed_results st (c :: l) = 0 :: feed_results [] l := by
  constructor
  · simp [read_frame, h]
  · simp [feed_results, parser_step, h]

/-- Walking the parser across the unconditional middle region of a frame
(payload plus checksum high byte): the bytes are accumulated one by one,
each reported as Continue. -/
theorem read_frame_mid_phase (mid : List Nat) :
    ∀ (st : List Nat) (len : Nat) (rest : List Nat),
      4 ≤ st.length → st.getD 3 0 = len → 4 + len + 3 ≤ 79 →
      st.length + mid.length ≤ 4 + len + 1 →
      read_frame st (mid ++ rest) = read_frame (st ++ mid) rest ∧
      feed_results st (mid ++ rest) =
        List.replicate mid.length 1 ++ feed_results (st ++ mid) rest := by
  induction mid with
  | nil => intro st len rest _ _ _ _; simp
  | cons c cs ih =>
    intro st len rest h4 hlen hcap hbound
    have hc : handle_byte st c = 1 :=
      handle_byte_payload_phase st c len h4 hlen hcap
        (by simp only [List.length_cons] at hbound; omega)
    have hlen' : (st ++ [c]).getD 3 0 = len := by
      rw [List.getD_append _ _ _ _ (by omega)]; exact hlen
    have h := ih (st ++ [c]) len rest (by simp; omega) hlen' hcap
      (by simp only [List.length_append, List.length_cons, List.length_nil] at hbound ⊢; omega)
    have hstep := read_frame_cons_continue hc (cs ++ rest)
    constructor
    · rw [List.cons_append, hstep.1, h.1, List.append_assoc]
      simp
    · rw [List.cons_append, hstep.2, h.2, List.append_assoc]
      simp [List.replicate_succ]

/-- Model of `handle_byte_` reports a complete frame only at the final position of a
frame whose declared payload respects the buffer capacity, and only on the
end marker. -/
theorem handle_byte_eq_zero {st : List Nat} {c : Nat} (h : handle_byte st c = 0) :
    st.length = 4 + st.getD 3 0 + 2 ∧ 4 + st.getD 3 0 + 3 ≤ 79 ∧ c = 4 := by
  simp only [handle_byte, SHELLY_DIMMER_BUFFER_SIZE] at h
  split_ifs at h <;> omega

/-- The element appended at the end of a list is read back by `getD` at the
index equal to the original length. -/
theorem getD_append_length (l : List Nat) (x : Nat) (n : Nat) (h : l.length = n) :
    (l ++ [x]).getD n 0 = x := by
  rw [List.getD_append_right _ _ _ _ (by omega)]
  simp [h]

/-- A leading repeated element commutes across a block of the same element. -/
theorem cons_one_replicate (n : Nat) (t : List Int) :
    (1 : Int) :: (List.replicate n 1 ++ t) = List.replicate n 1 ++ (1 :: t) := by
  induction n with
  | zero => rfl
  | succ k ih =>
    simp only [List.replicate_succ, List.cons_append]
    rw [ih]

/-- Feeding an encoded frame into a freshly reset parser: every byte up to the
last is answered with Continue (`1`), the final end marker completes the frame
(`0`), and the assembled buffer is exactly the encoded frame. -/
theorem parse_wire_frame (s c : Nat) (p : List Nat) (hp : p.length ≤ 72) :
    read_frame [] (frame_command s c p) = .frameDone (frame_command s c p) [] ∧
    feed_results [] (frame_command s c p) =
      List.replicate (p.length + 6) 1 ++ [0] := by
  set K := shelly_dimmer_checksum ([s, c, p.length] ++ p) with hK
  have hframe : frame_command s c p =
      1 :: s :: c :: p.length :: (p ++ [K / 256, K % 256, 4]) := by
    rw [hK]; simp [frame_command]
  -- the four header bytes
  have h0 : handle_byte [] 1 = 1 := by decide
  have h1 : handle_byte [1] s = 1 := by simp [handle_byte]
  have h2 : handle_byte [1, s] c = 1 := by simp [handle_byte]
  have h3 : handle_byte [1, s, c] p.length = 1 := by simp [handle_byte]
  -- payload and checksum-high phase
  have hmid := read_frame_mid_phase (p ++ [K / 256]) [1, s, c, p.length] p.length
    [K % 256, 4] (by simp) rfl (by omega)
    (by simp only [List.length_append, List.length_cons, List.length_nil] <;> omega)
  -- checksum-low byte
  have hg5 : (1 :: s :: c :: p.length :: (p ++ [K / 256]) : List Nat).getD 3 0 = p.length := rfl
  have hlen5 : (1 :: s :: c :: p.length :: (p ++ [K / 256]) : List Nat).length
      = 4 + p.length + 1 := by simp <;> omega
  have hdrop5 : (1 :: s :: c :: p.length :: (p ++ [K / 256]) : List Nat).drop 1
      = ([s, c, p.length] ++ p) ++ [K / 256] := by simp
  have hhi : (1 :: s :: c :: p.length :: (p ++ [K / 256]) : List Nat).getD
      (4 + p.length + 1 - 1) 0 = K / 256 := by
    have hidx : 4 + p.length + 1 - 1 = 3 + p.length + 1 := by omega
    rw [hidx, List.getD_cons_succ]
    have he : (s :: c :: p.length :: (p ++ [K / 256]) : List Nat)
        = ([s, c, p.length] ++ p) ++ [K / 256] := by simp
    rw [he]
    exact getD_append_length _ _ _
      (by simp only [List.length_append, List.length_cons, List.length_nil] <;> omega)
  have htake : ((([s, c, p.length] ++ p) ++ [K / 256]).take (3 + p.length) : List Nat)
      = [s, c, p.length] ++ p := by
    have h3l : ([s, c, p.length] ++ p).length = 3 + p.length := by
      simp only [List.length_append, List.length_cons, List.length_nil] <;> omega
    rw [← h3l, List.take_left]
  have hne : ¬(K / 256 * 256 + K % 256 ≠ shelly_dimmer_checksum ([s, c, p.length] ++ p)) := by
    rw [← hK]; omega
  have hcb : handle_byte (1 :: s :: c :: p.length :: (p ++ [K / 256])) (K % 256) = 1 := by
    simp only [handle_byte, SHELLY_DIMMER_BUFFER_SIZE, hg5, hlen5, hdrop5, hhi, htake]
    rw [if_neg (by omega), if_neg (by omega), if_neg (by omega), if_neg (by omega),
        if_pos trivial, if_neg hne]
  -- end marker
  have hg6 : (1 :: s :: c :: p.length :: ((p ++ [K / 256]) ++ [K % 256]) : List Nat).getD 3 0
      = p.length := rfl
  have hlen6 : (1 :: s :: c :: p.length :: ((p ++ [K / 256]) ++ [K % 256]) : List Nat).length
      = 4 + p.length + 2 := by simp <;> omega
  have hend : handle_byte (1 :: s :: c :: p.length :: ((p ++ [K / 256]) ++ [K % 256])) 4 = 0 := by
    simp only [handle_byte, SHELLY_DIMMER_BUFFER_SIZE, hg6, hlen6]
    rw [if_neg (by omega), if_neg (by omega), if_neg (by omega), if_neg (by omega),
        if_neg (by omega), if_pos trivial, if_pos trivial]
  -- chain everything together
  have hassoc : p ++ [K / 256, K % 256, 4] = (p ++ [K / 256]) ++ [K % 256, 4] := by simp
  have e0 := read_frame_cons_continue h0 (s :: c :: p.length :: (p ++ [K / 256, K % 256, 4]))
  have e1 := read_frame_cons_continue h1 (c :: p.length :: (p ++ [K / 256, K % 256, 4]))
  have e2 := read_frame_cons_continue h2 (p.length :: (p ++ [K / 256, K % 256, 4]))
  have e3 := read_frame_cons_continue h3 (p ++ [K / 256, K % 256, 4])
  have e5r : read_frame (1 :: s :: c :: p.length :: (p ++ [K / 256])) (K % 256 :: [4])
      = read_frame (1 :: s :: c :: p.length :: ((p ++ [K / 256]) ++ [K % 256])) [4] :=
    (read_frame_cons_continue hcb [4]).1
  have e5f : feed_results (1 :: s :: c :: p.length :: (p ++ [K / 256])) (K % 256 :: [4])
      = 1 :: feed_results (1 :: s :: c :: p.length :: ((p ++ [K / 256]) ++ [K % 256])) [4] :=
    (read_frame_cons_continue hcb [4]).2
  have e6r : read_frame (1 :: s :: c :: p.length :: ((p ++ [K / 256]) ++ [K % 256])) [4]
      = .frameDone ((1 :: s :: c :: p.length :: ((p ++ [K / 256]) ++ [K % 256])) ++ [4]) [] :=
    (read_frame_cons_complete hend []).1
  have e6f : feed_results (1 :: s :: c :: p.length :: ((p ++ [K / 256]) ++ [K % 256])) [4]
      = 0 :: feed_results [] [] := (read_frame_cons_complete hend []).2
  have hmid1 : read_frame [1, s, c, p.length] ((p ++ [K / 256]) ++ [K % 256, 4])
      = read_frame (1 :: s :: c :: p.length :: (p ++ [K / 256])) [K % 256, 4] := hmid.1
  have hmid2 : feed_results [1, s, c, p.length] ((p ++ [K / 256]) ++ [K % 256, 4])
      = List.replicate (p ++ [K / 256]).length 1
        ++ feed_results (1 :: s :: c :: p.length :: (p ++ [K / 256])) [K % 256, 4] := hmid.2
  constructor
  · rw [hframe, e0.1]
    rw [show ([] ++ [1] : List Nat) = [1] from rfl, e1.1]
    rw [show ([1] ++ [s] : List Nat) = [1, s] from rfl, e2.1]
    rw [show ([1, s] ++ [c] : List Nat) = [1, s, c] from rfl, e3.1]
    rw [show ([1, s, c] ++ [p.length] : List Nat) = [1, s, c, p.length] from rfl]
    rw [hassoc, hmid1, e5r, e6r]
    simp
  · rw [hframe, e0.2]
    rw [show ([] ++ [1] : List Nat) = [1] from rfl, e1.2]
    rw [show ([1] ++ [s] : List Nat) = [1, s] from rfl, e2.2]
    rw [show ([1, s] ++ [c] : List Nat) = [1, s, c] from rfl, e3.2]
    rw [show ([1, s, c] ++ [p.length] : List Nat) = [1, s, c, p.length] from rfl]
    rw [hassoc, hmid2, e5f, e6f]
    have hlmid : (p ++ [K / 256]).length = p.length + 1 := by
      simp only [List.length_append, List.length_cons, List.length_nil]
    rw [hlmid]
    have hrep : List.replicate (p.length + 6) (1 : Int)
        = List.replicate 3 1 ++ (List.replicate (p.length + 1) 1 ++ List.replicate 2 1) := by
      rw [← List.replicate_add, ← List.replicate_add]
      congr 1
      omega
    rw [hrep]
    simp [feed_results, List.replicate_succ, List.replicate_succ']
    exact cons_one_replicate p.length [1, 0]

/-- C2: For every command id, every sequence value, and every payload of
length 0 through 72, feeding the bytes produced by `frame_command_` one at a
time to the stream parser (starting from cursor position 0) yields Continue
(`1`) for every byte except the last and Complete (`0`) on the last byte, and
the reconstructed buffer holds exactly the original sequence byte, command
id, declared length, and payload bytes. -/
theorem frame_roundtrip (s c : Nat) (p : List Nat) (hp : p.length ≤ 72) :
    feed_results [] (frame_command s c p) = List.replicate (p.length + 6) 1 ++ [0] ∧
    read_frame [] (frame_command s c p) = .frameDone (frame_command s c p) [] ∧
    (frame_command s c p).getD 1 0 = s ∧
    (frame_command s c p).getD 2 0 = c ∧
    (frame_command s c p).getD 3 0 = p.length ∧
    ((frame_command s c p).drop 4).take p.length = p := by
  refine ⟨(parse_wire_frame s c p hp).2, (parse_wire_frame s c p hp).1, rfl, rfl, rfl, ?_⟩
  rw [show (frame_command s c p).drop 4
      = p ++ [shelly_dimmer_checksum ([s, c, p.length] ++ p) / 256,
              shelly_dimmer_checksum ([s, c, p.length] ++ p) % 256, 4] from rfl]
  exact List.take_left p _

/-- Witness for `frame_roundtrip` at the spec's worked example: switch
command, payload `[0xE8, 0x03]`, sequence byte 5. -/
theorem frame_roundtrip_witness :
    ([232, 3] : List Nat).length ≤ 72 ∧
    (feed_results [] (frame_command 5 1 [232, 3])
        = List.replicate (([232, 3] : List Nat).length + 6) 1 ++ [0] ∧
      read_frame [] (frame_command 5 1 [232, 3])
        = .frameDone (frame_command 5 1 [232, 3]) [] ∧
      (frame_command 5 1 [232, 3]).getD 1 0 = 5 ∧
      (frame_command 5 1 [232, 3]).getD 2 0 = 1 ∧
      (frame_command 5 1 [232, 3]).getD 3 0 = ([232, 3] : List Nat).length ∧
      ((frame_command 5 1 [232, 3]).drop 4).take ([232, 3] : List Nat).length = [232, 3]) :=
  ⟨by decide, frame_roundtrip 5 1 [232, 3] (by decide)⟩

/-- C3: a declared payload length whose required frame size
`4 + payload_len + 3` exceeds the parse buffer capacity is rejected with
Error (`-1`) on the very first byte after the header (before consuming the
declared payload), and no frame with such a length is ever completed. -/
theorem oversized_frame_rejected :
    (∀ (st : List Nat) (c len : Nat), st.length = 4 → st.getD 3 0 = len →
      4 + len + 3 > SHELLY_DIMMER_BUFFER_SIZE → handle_byte st c = -1) ∧
    (∀ (input st frame rest : List Nat), read_frame st input = .frameDone frame rest →
      4 + frame.getD 3 0 + 3 ≤ SHELLY_DIMMER_BUFFER_SIZE) := by
  constructor
  · intro st c len h4 hl hcap
    simp only [SHELLY_DIMMER_BUFFER_SIZE] at hcap
    simp only [handle_byte, SHELLY_DIMMER_BUFFER_SIZE, h4, hl]
    rw [if_neg (by omega), if_neg (by omega), if_pos (by omega)]
  · intro input
    induction input with
    | nil =>
      intro st frame rest h
      simp [read_frame] at h
    | cons b bs ih =>
      intro st frame rest h
      by_cases hb : handle_byte st b = 0
      · have hchar := handle_byte_eq_zero hb
        simp only [read_frame, hb, if_pos] at h
        have hframe : frame = st ++ [b] := by
          cases h
          rfl
        have hgd : frame.getD 3 0 = st.getD 3 0 := by
          rw [hframe, List.getD_append _ _ _ _ (by omega)]
        simp only [SHELLY_DIMMER_BUFFER_SIZE]
        omega
      · simp only [read_frame] at h
        rw [if_neg hb] at h
        exact ih _ _ _ h

/-- Witness for `oversized_frame_rejected`: declared length 73 (frame size 80
exceeds the capacity 79) is rejected immediately at cursor 4; a completed
frame (the 1-byte-payload switch reply) respects the capacity bound. -/
theorem oversized_frame_rejected_witness :
    (([1, 0, 0, 73] : List Nat).length = 4 ∧ ([1, 0, 0, 73] : List Nat).getD 3 0 = 73 ∧
      4 + 73 + 3 > SHELLY_DIMMER_BUFFER_SIZE ∧ handle_byte [1, 0, 0, 73] 0 = -1) ∧
    (read_frame [] [1, 5, 1, 1, 1, 0, 8, 4] = .frameDone [1, 5, 1, 1, 1, 0, 8, 4] [] ∧
      4 + ([1, 5, 1, 1, 1, 0, 8, 4] : List Nat).getD 3 0 + 3 ≤ SHELLY_DIMMER_BUFFER_SIZE) :=
  ⟨⟨by decide, by decide, by decide,
      oversized_frame_rejected.1 [1, 0, 0, 73] 0 73 (by decide) (by decide) (by decide)⟩,
   ⟨by decide,
      oversized_frame_rejected.2 [1, 5, 1, 1, 1, 0, 8, 4] [] [1, 5, 1, 1, 1, 0, 8, 4] []
        (by decide)⟩⟩

/-- If the last `handle_byte_` answer for a fed byte list is not Continue
(i.e. the final byte completed a frame or failed), the parser cursor has been
reset to 0 (empty buffer state). -/
theorem feed_last_not_continue (input : List Nat) :
    ∀ (st : List Nat) (r : Int), (feed_results st input).getLast? = some r → r ≠ 1 →
      parse_run st input = [] := by
  induction input with
  | nil =>
    intro st r h _
    simp [feed_results] at h
  | cons b bs ih =>
    intro st r h hr
    cases bs with
    | nil =>
      have hb : handle_byte st b = r := by
        have he : (feed_results st [b]).getLast? = some (handle_byte st b) := rfl
        rw [he] at h
        exact Option.some.inj h
      show (if handle_byte st b = 1 then st ++ [b] else []) = []
      rw [if_neg (by rw [hb]; exact hr)]
    | cons b2 bs2 =>
      rw [show feed_results st (b :: b2 :: bs2)
          = handle_byte st b :: feed_results (parser_step st b).2 (b2 :: bs2) from rfl] at h
      rw [show feed_results (parser_step st b).2 (b2 :: bs2)
          = handle_byte (parser_step st b).2 b2
            :: feed_results (parser_step (parser_step st b).2 b2).2 bs2 from rfl] at h
      rw [List.getLast?_cons_cons] at h
      exact ih (parser_step st b).2 r h hr

/-- C4: the parser cursor is reset to 0 whenever `handle_byte_` reports
Complete or Error for the last processed byte, and after any Error a
subsequent well-formed frame — whatever garbage preceded the error — parses
to Complete. -/
theorem parser_reset_and_resync :
    (∀ (g : List Nat) (r : Int), (feed_results [] g).getLast? = some r → r ≠ 1 →
      parse_run [] g = []) ∧
    (∀ (g : List Nat) (s c : Nat) (p : List Nat), p.length ≤ 72 →
      (feed_results [] g).getLast? = some (-1) →
      read_frame (parse_run [] g) (frame_command s c p)
        = .frameDone (frame_command s c p) []) := by
  constructor
  · intro g r h hr
    exact feed_last_not_continue g [] r h hr
  · intro g s c p hp hlast
    rw [feed_last_not_continue g [] (-1) hlast (by decide)]
    exact (parse_wire_frame s c p hp).1

/-- Witness for `parser_reset_and_resync`: the garbage byte `0x07` yields an
immediate Error (not a start marker), the cursor is reset, and a well-formed
switch frame then completes. -/
theorem parser_reset_and_resync_witness :
    ((feed_results [] [7]).getLast? = some (-1) ∧ (-1 : Int) ≠ 1 ∧
      parse_run [] [7] = []) ∧
    (([1] : List Nat).length ≤ 72 ∧
      read_frame (parse_run [] [7]) (frame_command 5 1 [1])
        = .frameDone (frame_command 5 1 [1]) []) :=
  ⟨⟨by decide, by decide, parser_reset_and_resync.1 [7] (-1) (by decide) (by decide)⟩,
   ⟨by decide, parser_reset_and_resync.2 [7] 5 1 [1] (by decide) (by decide)⟩⟩

/-- The zero input is the dedicated off sentinel for every configuration. -/
theorem convert_brightness_at_zero (min_b max_b : Nat) :
    convert_brightness min_b max_b 0 = 0 := by
  simp [convert_brightness]

/-- Full brightness at the default configuration min = 0, max = 1000. -/
theorem convert_brightness_at_one : convert_brightness 0 1000 1 = 1000 := by
  have h1 : (1 : ℚ) ≠ 0 := one_ne_zero
  simp only [convert_brightness, SHELLY_DIMMER_MAX_BRIGHTNESS, if_neg h1]
  norm_num
  decide

/-- C5: `convert_brightness_` maps 0.0 to 0 for every configuration; the
output is always clamped to at most 1000; every nonzero input in (0, 1]
lands in `[min_brightness, max_brightness]` (so at least `min_brightness`)
whenever `min_brightness ≤ max_brightness ≤ 1000`; and input 1.0 with
min = 0, max = 1000 yields exactly 1000. -/
theorem convert_brightness_spec (min_b max_b : Nat) (b : ℚ) :
    convert_brightness min_b max_b 0 = 0 ∧
    convert_brightness min_b max_b b ≤ 1000 ∧
    (0 < b → b ≤ 1 → min_b ≤ max_b → max_b ≤ 1000 →
      min_b ≤ convert_brightness min_b max_b b ∧
      convert_brightness min_b max_b b ≤ max_b) ∧
    convert_brightness 0 1000 1 = 1000 := by
  refine ⟨convert_brightness_at_zero min_b max_b, ?_, ?_, convert_brightness_at_one⟩
  · by_cases hb : b = 0
    · simp [convert_brightness, hb]
    · simp only [convert_brightness, SHELLY_DIMMER_MAX_BRIGHTNESS, if_neg hb]
      exact min_le_right _ _
  · intro hpos hle hmin hmax
    have hne : b ≠ 0 := ne_of_gt hpos
    have hcast : ((max_b : ℚ) - (min_b : ℚ)) = ((max_b - min_b : Nat) : ℚ) := by
      rw [Nat.cast_sub hmin]
    have hnonneg : (0 : ℚ) ≤ b * ((max_b : ℚ) - (min_b : ℚ)) := by
      apply mul_nonneg (le_of_lt hpos)
      rw [hcast]
      exact Nat.cast_nonneg _
    have hfloor0 : 0 ≤ Int.floor (b * ((max_b : ℚ) - (min_b : ℚ))) :=
      Int.floor_nonneg.mpr hnonneg
    have hup : b * ((max_b : ℚ) - (min_b : ℚ)) ≤ ((max_b - min_b : Nat) : ℚ) := by
      rw [← hcast]
      have hd : (0 : ℚ) ≤ ((max_b : ℚ) - (min_b : ℚ)) := by
        rw [hcast]; exact Nat.cast_nonneg _
      calc b * ((max_b : ℚ) - (min_b : ℚ)) ≤ 1 * ((max_b : ℚ) - (min_b : ℚ)) := by
            exact mul_le_mul_of_nonneg_right hle hd
        _ = ((max_b : ℚ) - (min_b : ℚ)) := one_mul _
    have hfloorle : Int.floor (b * ((max_b : ℚ) - (min_b : ℚ))) ≤ (max_b - min_b : Nat) := by
      have := Int.floor_le_floor hup
      rwa [Int.floor_natCast] at this
    have htn : (Int.floor (b * ((max_b : ℚ) - (min_b : ℚ)))).toNat ≤ max_b - min_b := by
      omega
    simp only [convert_brightness, SHELLY_DIMMER_MAX_BRIGHTNESS, if_neg hne]
    set K := (Int.floor (b * ((max_b : ℚ) - (min_b : ℚ)))).toNat with hKdef
    rw [Nat.mod_eq_of_lt (show K < 65536 by omega)]
    rw [Nat.mod_eq_of_lt (show K + min_b < 65536 by omega)]
    rw [min_eq_left (show K + min_b ≤ 1000 by omega)]
    omega

/-- Witness for `convert_brightness_spec`: configuration min = 100,
max = 900, input 1/2 lands in `[100, 900]`. -/
theorem convert_brightness_spec_witness :
    (0 < (1 / 2 : ℚ) ∧ (1 / 2 : ℚ) ≤ 1 ∧ (100 : Nat) ≤ 900 ∧ (900 : Nat) ≤ 1000) ∧
    (100 ≤ convert_brightness 100 900 (1 / 2) ∧ convert_brightness 100 900 (1 / 2) ≤ 900) :=
  ⟨⟨by norm_num, by norm_num, by norm_num, by norm_num⟩,
   (convert_brightness_spec 100 900 (1 / 2)).2.2.1 (by norm_num) (by norm_num)
     (by norm_num) (by norm_num)⟩

/-- C7: every invocation of `send_settings_` issues exactly two commands — a
settings command (0x20) followed by a switch command (0x01) — and both carry
the same brightness value in their first two payload bytes. -/
theorem send_settings_two_commands (st : DimmerState) (raw : ℚ) :
    (send_settings st raw).2.length = 2 ∧
    ((send_settings st raw).2.getD 0 (0, [])).1 = 32 ∧
    ((send_settings st raw).2.getD 1 (0, [])).1 = 1 ∧
    ((send_settings st raw).2.getD 0 (0, [])).2.take 2
      = ((send_settings st raw).2.getD 1 (0, [])).2.take 2 := by
  refine ⟨rfl, rfl, rfl, ?_⟩
  simp [send_settings, send_brightness]

/-- C10: `write_state` transmits nothing and leaves the whole device state
(including the last-sent brightness) unchanged when the readiness flag is
unset, and likewise when the converted brightness equals the last-sent one;
a changed brightness on a ready device sends exactly one switch command.  -/
theorem write_state_gating (st : DimmerState) (raw : ℚ) :
    (st.ready_ = false → write_state st raw = (st, [])) ∧
    (st.ready_ = true →
      convert_brightness st.min_brightness_ st.max_brightness_ raw = st.brightness_ →
      write_state st raw = (st, [])) ∧
    (st.ready_ = true →
      convert_brightness st.min_brightness_ st.max_brightness_ raw ≠ st.brightness_ →
      write_state st raw =
        ({ st with brightness_ := convert_brightness st.min_brightness_ st.max_brightness_ raw },
         [(1, [convert_brightness st.min_brightness_ st.max_brightness_ raw % 256,
               convert_brightness st.min_brightness_ st.max_brightness_ raw / 256])])) := by
  refine ⟨?_, ?_, ?_⟩
  · intro h
    simp [write_state, h]
  · intro h hb
    simp [write_state, h, hb]
  · intro h hb
    simp [write_state, send_brightness, h, hb]

/-- Witness for `write_state_gating`: a not-ready device ignores the write;
a ready device with an unchanged brightness (input 0 with last-sent 0) sends
nothing; a ready device with a change sends the switch command. -/
theorem write_state_gating_witness :
    write_state ⟨0, 0, 0, 1000, 0, 0, 0, false, false⟩ 0
        = (⟨0, 0, 0, 1000, 0, 0, 0, false, false⟩, []) ∧
    write_state ⟨0, 0, 0, 1000, 0, 0, 0, false, true⟩ 0
        = (⟨0, 0, 0, 1000, 0, 0, 0, false, true⟩, []) ∧
    write_state ⟨0, 0, 0, 1000, 0, 0, 0, false, true⟩ 1
        = (⟨0, 1000, 0, 1000, 0, 0, 0, false, true⟩, [(1, [232, 3])]) := by
  refine ⟨(write_state_gating ⟨0, 0, 0, 1000, 0, 0, 0, false, false⟩ 0).1 rfl, ?_, ?_⟩
  · exact (write_state_gating ⟨0, 0, 0, 1000, 0, 0, 0, false, true⟩ 0).2.1 rfl
      (convert_brightness_at_zero 0 1000)
  · have hne : convert_brightness 0 1000 1 ≠ 0 := by
      rw [convert_brightness_at_one]; decide
    have h := (write_state_gating ⟨0, 0, 0, 1000, 0, 0, 0, false, true⟩ 1).2.2 rfl hne
    rw [h]
    show ((⟨0, convert_brightness 0 1000 1, 0, 1000, 0, 0, 0, false, true⟩ : DimmerState),
        ([(1, [convert_brightness 0 1000 1 % 256, convert_brightness 0 1000 1 / 256])]
          : List (Nat × List Nat)))
      = ((⟨0, 1000, 0, 1000, 0, 0, 0, false, true⟩ : DimmerState),
        ([(1, [232, 3])] : List (Nat × List Nat)))
    rw [convert_brightness_at_one]

/-- C6: with a transport that never makes a byte available, `send_command_`
transmits the identical encoded frame exactly 3 times — one transmission per
attempt, the sequence number incremented only once — and returns failure. -/
theorem send_command_no_reply_three_transmissions (seq cmd : Nat) (payload : List Nat) :
    send_command seq cmd payload []
      = (false, List.replicate 3 (frame_command ((seq + 1) % 256) cmd payload),
         (seq + 1) % 256) := rfl

/-- C1 (amended): `send_command_` returns success as soon as the parser
completes any frame in the first attempt's window, even when that frame's
sequence byte differs from the sequence just sent; in that case the
dispatcher itself reports failure (`handle_frame_` rejects the mismatched
sequence), but `read_frame_` discards that result, so the wait still ends
with success instead of continuing to poll. -/
theorem send_command_any_complete_frame_succeeds
    (seq cmd : Nat) (payload : List Nat) (inputs : List (List Nat))
    (f r : List Nat) (hc : read_frame [] (inputs.headD []) = .frameDone f r) :
    (send_command seq cmd payload inputs).1 = true ∧
    (f.getD 1 0 ≠ (seq + 1) % 256 →
      (handle_frame f ((seq + 1) % 256)).ok = false) := by
  constructor
  · simp only [send_command, send_command_loop, SHELLY_DIMMER_MAX_RETRIES, hc]
  · intro hne
    simp only [handle_frame]
    rw [if_pos hne]

/-- Witness for `send_command_any_complete_frame_succeeds`: the device (with
sequence counter 0) sends a command with sequence byte 1, while the transport
delivers a complete, checksum-valid switch frame carrying sequence byte 5. -/
theorem send_command_any_complete_frame_succeeds_witness :
    read_frame [] ([[1, 5, 1, 1, 1, 0, 8, 4]].headD [])
      = .frameDone [1, 5, 1, 1, 1, 0, 8, 4] [] ∧
    (send_command 0 16 [] [[1, 5, 1, 1, 1, 0, 8, 4]]).1 = true ∧
    (([1, 5, 1, 1, 1, 0, 8, 4] : List Nat).getD 1 0 ≠ (0 + 1) % 256 →
      (handle_frame [1, 5, 1, 1, 1, 0, 8, 4] ((0 + 1) % 256)).ok = false) :=
  ⟨by decide,
   send_command_any_complete_frame_succeeds 0 16 [] [[1, 5, 1, 1, 1, 0, 8, 4]]
     [1, 5, 1, 1, 1, 0, 8, 4] [] (by decide)⟩

/-- C1 counterexample: with the transport delivering a completed frame whose
sequence byte (5) does not match the sequence just sent (1), `send_command_`
nevertheless returns success (`read_frame_` ignores the dispatch result), so
the mismatched frame is not discarded with polling continuing, contradicting
the claim that success requires a matching sequence byte. -/
theorem send_command_wrong_seq_success :
    (send_command 0 16 [] [[1, 5, 1, 1, 1, 0, 8, 4]]).1 = true ∧
    (send_command 0 16 [] [[1, 5, 1, 1, 1, 0, 8, 4]]).2.2 = 1 ∧
    read_frame [] [1, 5, 1, 1, 1, 0, 8, 4] = .frameDone [1, 5, 1, 1, 1, 0, 8, 4] [] ∧
    ([1, 5, 1, 1, 1, 0, 8, 4] : List Nat).getD 1 0 ≠ 1 ∧
    (handle_frame [1, 5, 1, 1, 1, 0, 8, 4] 1).ok = false := by
  refine ⟨by decide, by decide, by decide, by decide, by decide⟩

/-- C8: for a dispatched poll report (sequence match, command 0x10, payload
length at least 16), each physical quantity whose raw little-endian 32-bit
reading is 0 decodes to exactly 0, and the division by the raw value is
performed only when the raw value is positive. -/
theorem poll_zero_raw_decodes_zero (buffer : List Nat) (seq : Nat)
    (hseq : buffer.getD 1 0 = seq) (hcmd : buffer.getD 2 0 = 16)
    (hlen : 16 ≤ buffer.getD 3 0) :
    ∀ p v c : ℚ, (handle_frame buffer seq).telemetry = some (p, v, c) →
      ((le32_at (buffer.drop 4) 4 = 0 → p = 0) ∧
        (0 < le32_at (buffer.drop 4) 4 →
          p = POWER_SCALING_FACTOR / (le32_at (buffer.drop 4) 4 : ℚ))) ∧
      ((le32_at (buffer.drop 4) 8 = 0 → v = 0) ∧
        (0 < le32_at (buffer.drop 4) 8 →
          v = VOLTAGE_SCALING_FACTOR / (le32_at (buffer.drop 4) 8 : ℚ))) ∧
      ((le32_at (buffer.drop 4) 12 = 0 → c = 0) ∧
        (0 < le32_at (buffer.drop 4) 12 →
          c = CURRENT_SCALING_FACTOR / (le32_at (buffer.drop 4) 12 : ℚ))) := by
  intro p v c h
  have hnotne : ¬(buffer.getD 1 0 ≠ seq) := by rw [hseq]; exact fun hx => hx rfl
  simp only [handle_frame, hcmd] at h
  rw [if_neg hnotne, if_pos trivial, if_neg (by omega)] at h
  have htel : (some ((if 0 < le32_at (buffer.drop 4) 4 then
        POWER_SCALING_FACTOR / (le32_at (buffer.drop 4) 4 : ℚ) else 0),
      (if 0 < le32_at (buffer.drop 4) 8 then
        VOLTAGE_SCALING_FACTOR / (le32_at (buffer.drop 4) 8 : ℚ) else 0),
      (if 0 < le32_at (buffer.drop 4) 12 then
        CURRENT_SCALING_FACTOR / (le32_at (buffer.drop 4) 12 : ℚ) else 0))
      : Option (ℚ × ℚ × ℚ)) = some (p, v, c) := h
  have hp := (Prod.mk.injEq _ _ _ _).mp (Option.some.inj htel)
  have hv := (Prod.mk.injEq _ _ _ _).mp hp.2
  refine ⟨⟨?_, ?_⟩, ⟨?_, ?_⟩, ⟨?_, ?_⟩⟩
  · intro hz; rw [← hp.1, if_neg (by omega)]
  · intro hpos; rw [← hp.1, if_pos hpos]
  · intro hz; rw [← hv.1, if_neg (by omega)]
  · intro hpos; rw [← hv.1, if_pos hpos]
  · intro hz; rw [← hv.2, if_neg (by omega)]
  · intro hpos; rw [← hv.2, if_pos hpos]

/-- Witness for `poll_zero_raw_decodes_zero`: a poll reply with all raw
readings zero decodes power, voltage and current to exactly 0. -/
theorem poll_zero_raw_decodes_zero_witness :
    (([1, 7, 16, 17, 9, 0, 55, 4, 0, 0, 0, 0, 0, 0, 0, 0, 0, 0, 0, 0, 3]
        : List Nat).getD 1 0 = 7 ∧
      ([1, 7, 16, 17, 9, 0, 55, 4, 0, 0, 0, 0, 0, 0, 0, 0, 0, 0, 0, 0, 3]
        : List Nat).getD 2 0 = 16 ∧
      16 ≤ ([1, 7, 16, 17, 9, 0, 55, 4, 0, 0, 0, 0, 0, 0, 0, 0, 0, 0, 0, 0, 3]
        : List Nat).getD 3 0 ∧
      (handle_frame [1, 7, 16, 17, 9, 0, 55, 4, 0, 0, 0, 0, 0, 0, 0, 0, 0, 0, 0, 0, 3] 7).telemetry
        = some ((0 : ℚ), (0 : ℚ), (0 : ℚ))) ∧
    (le32_at ([1, 7, 16, 17, 9, 0, 55, 4, 0, 0, 0, 0, 0, 0, 0, 0, 0, 0, 0, 0, 3].drop 4) 4 = 0 →
      (0 : ℚ) = 0) :=
  ⟨⟨rfl, rfl, by decide, rfl⟩,
   ((poll_zero_raw_decodes_zero
      [1, 7, 16, 17, 9, 0, 55, 4, 0, 0, 0, 0, 0, 0, 0, 0, 0, 0, 0, 0, 3] 7
      rfl rfl (by decide) 0 0 0 rfl).1).1⟩

/-- C9: during initialization the firmware flash step runs at most once, and
if the version check after a flash still mismatches the expected version,
the device is marked failed, no further flash is attempted, and the
readiness flag is never set. -/
theorem setup_flash_at_most_once (expM expm : Nat) (versions : Nat → Nat × Nat)
    (upgrade_ok : Bool) :
    (setup_model expM expm versions upgrade_ok).2.2 ≤ 1 ∧
    (((versions 0).1 ≠ expM ∨ (versions 0).2 ≠ expm) → upgrade_ok = true →
      ((versions 1).1 ≠ expM ∨ (versions 1).2 ≠ expm) →
      setup_model expM expm versions upgrade_ok = (true, false, 1)) := by
  constructor
  · by_cases h0 : (versions 0).1 ≠ expM ∨ (versions 0).2 ≠ expm
    · by_cases hup : upgrade_ok = false
      · simp [setup_model, setup_loop, h0, hup]
      · by_cases h1 : (versions 1).1 ≠ expM ∨ (versions 1).2 ≠ expm
        · simp [setup_model, setup_loop, h0, hup, h1]
        · simp [setup_model, setup_loop, h0, hup, h1]
    · simp [setup_model, setup_loop, h0]
  · intro h0 hup h1
    simp [setup_model, setup_loop, h0, hup, h1]

/-- Witness for `setup_flash_at_most_once`: expected version 1.0, device
reporting 9.9 at both checks, flash succeeding — the setup fails after
exactly one flash and never becomes ready. -/
theorem setup_flash_at_most_once_witness :
    (((fun _ : Nat => ((9 : Nat), (9 : Nat))) 0).1 ≠ 1 ∨
      ((fun _ : Nat => ((9 : Nat), (9 : Nat))) 0).2 ≠ 0) ∧
    (((fun _ : Nat => ((9 : Nat), (9 : Nat))) 1).1 ≠ 1 ∨
      ((fun _ : Nat => ((9 : Nat), (9 : Nat))) 1).2 ≠ 0) ∧
    setup_model 1 0 (fun _ => (9, 9)) true = (true, false, 1) :=
  ⟨Or.inl (by decide), Or.inl (by decide),
   (setup_flash_at_most_once 1 0 (fun _ => (9, 9)) true).2
     (Or.inl (by decide)) rfl (Or.inl (by decide))⟩

end ShellyDimmer
